import Mathlib

/-!
Verification of the project-descriptor resolution engine of the
csharpextensions repository (src/project/csprojReader.ts).

The embedding models the parsed xml2js document tree exactly as the
TypeScript code consumes it: every child element name maps to the array of
its occurrences (a key is present iff at least one such child exists), and
attribute objects appear under an optional attribute record (the xml2js
dollar key).  External collaborators (FileHandler.read, the xml2js parser,
and Node's path module) are gathered in an explicit environment record; a
thrown JavaScript error is modelled as Except.error.
-/

namespace CsprojVerify

/-- One parsed PropertyGroup element.  xml2js maps each child element name
to the array of its text contents; a field is some iff the element has at
least one child of that name (in JS the array is truthy even when empty,
absence of the key is the only falsy case). -/
structure PropertyGroup where
  RootNamespace : Option (List String)
  TargetFramework : Option (List String)
  ImplicitUsings : Option (List String)
deriving DecidableEq

/-- Attribute record of a Using element (the xml2js dollar object):
optional Include and Remove attributes, either possibly the empty string. -/
structure UsingAttrs where
  Include : Option String
  Remove : Option String
deriving DecidableEq

/-- One parsed Using element; attrs is none when the element carries no
attributes at all (xml2js then yields a bare string, whose dollar access
is undefined). -/
structure Using where
  attrs : Option UsingAttrs
deriving DecidableEq

/-- One parsed ItemGroup element; the Using field is present iff the group
has at least one Using child. -/
structure ItemGroup where
  Using : Option (List Using)
deriving DecidableEq

/-- Attribute record of an Import element: the optional Project attribute
holding the reference path. -/
structure ImportAttrs where
  Project : Option String
deriving DecidableEq

/-- One parsed Import element. -/
structure ImportElem where
  attrs : Option ImportAttrs
deriving DecidableEq

/-- The Project node of a parsed document. -/
structure ProjectNode where
  PropertyGroup : Option (List PropertyGroup)
  ItemGroup : Option (List ItemGroup)
  Import : Option (List ImportElem)
deriving DecidableEq

/-- A parsed document: the Project field is none when the root element is
missing or is not an object (then every child access yields undefined). -/
structure Csproj where
  Project : Option ProjectNode
deriving DecidableEq

/-- Collaborator environment of one CsprojReader: FileHandler.read (none
models a read fault), the xml2js parser (none models a parse rejection),
and Node's path module (path.sep, path.dirname, path.resolve).  These are
external to the unit under verification. -/
structure Env where
  read : String → Option String
  parse : String → Option Csproj
  sep : String
  dirname : String → String
  resolve : String → String → String

/-- CsprojReader.getContent followed by xmlParser.parseStringPromise: read
the file and parse it; either failure propagates as a thrown error. -/
def getXmlContent (env : Env) (filePath : String) : Except Unit Csproj :=
  match env.read filePath with
  | none => .error ()
  | some content =>
    match env.parse content with
    | none => .error ()
    | some xml => .ok xml

/-- Replace the first occurrence of pat in the character list (helper for
the JS String.replace semantics with a string pattern). -/
def replaceFirstL (pat repl : List Char) : List Char → List Char
  | [] => []
  | c :: r =>
    if pat.isPrefixOf (c :: r) then repl ++ (c :: r).drop pat.length
    else c :: replaceFirstL pat repl r

/-- JS String.replace with a string pattern: only the first occurrence of
the pattern is replaced. -/
def replaceFirst (s pat repl : String) : String :=
  String.mk (replaceFirstL pat.data repl.data s.data)

/-- The path the import fallback loads: the Import element's Project
attribute with its first backslash and then its first slash replaced by
path.sep, resolved against the directory of the reader's bound path. -/
def importTargetPath (env : Env) (filePath ref : String) : String :=
  env.resolve (env.dirname filePath)
    (replaceFirst (replaceFirst ref "\\" env.sep) "/" env.sep)

/-- CsprojReader.getPropertyGroups: return the root document's
PropertyGroup array when the key is present; otherwise follow the first
Import element (if any) one level and return the imported document's
PropertyGroup array.  Accessing a missing attribute record or a missing
Project attribute throws, as in JS. -/
def getPropertyGroups (env : Env) (filePath : String) :
    Except Unit (Option (List PropertyGroup)) :=
  match getXmlContent env filePath with
  | .error e => .error e
  | .ok xmlContent =>
    match xmlContent.Project.bind ProjectNode.PropertyGroup with
    | some pgs => .ok (some pgs)
    | none =>
      match xmlContent.Project.bind ProjectNode.Import with
      | none => .ok none
      | some imports =>
        match imports with
        | [] => .ok none
        | imp :: _ =>
          match imp.attrs with
          | none => .error ()
          | some attrs =>
            match attrs.Project with
            | none => .error ()
            | some ref =>
              match getXmlContent env (importTargetPath env filePath ref) with
              | .error e => .error e
              | .ok importXmlContent =>
                .ok (importXmlContent.Project.bind ProjectNode.PropertyGroup)

/-- The common scalar lookup of the three getters: find the first group
whose field is present (the JS find with a truthiness test on the array),
then take element 0 of that array (undefined when the array is empty). -/
def firstDefined (f : PropertyGroup → Option (List String))
    (pgs : List PropertyGroup) : Option String :=
  match pgs.find? (fun p => (f p).isSome) with
  | none => none
  | some g =>
    match f g with
    | none => none
    | some vs => vs.head?

/-- CsprojReader.getRootNamespace: the first property group defining
RootNamespace wins; parse or load errors are caught and yield undefined. -/
def getRootNamespace (env : Env) (filePath : String) : Option String :=
  match getPropertyGroups env filePath with
  | .error _ => none
  | .ok none => none
  | .ok (some pgs) => firstDefined (fun p => p.RootNamespace) pgs

/-- CsprojReader.getTargetFramework: the first property group defining
TargetFramework wins; parse or load errors are caught and yield undefined. -/
def getTargetFramework (env : Env) (filePath : String) : Option String :=
  match getPropertyGroups env filePath with
  | .error _ => none
  | .ok none => none
  | .ok (some pgs) => firstDefined (fun p => p.TargetFramework) pgs

/-- CsprojReader.useImplicitUsings: resolved value compared with the
literal enable by case-sensitive string equality; absence, any other
value, and a caught parse error all yield false. -/
def useImplicitUsings (env : Env) (filePath : String) : Bool :=
  match getPropertyGroups env filePath with
  | .error _ => false
  | .ok none => false
  | .ok (some pgs) =>
    match firstDefined (fun p => p.ImplicitUsings) pgs with
    | none => false
    | some v => v == "enable"

/-- Lookbehind test of the version regex: the three characters before the
current position are net, case-insensitively (the argument is the reversed
prefix of the scanned string). -/
def netBefore : List Char → Bool
  | t :: e :: n :: _ => t.toLower == 't' && e.toLower == 'e' && n.toLower == 'n'
  | _ => false

/-- Greedy continuation of the version regex: zero or more groups of a dot
followed by one or more digits (fuel-indexed to stay structural). -/
def dotRunsF : Nat → List Char → List Char
  | 0, _ => []
  | _, [] => []
  | fuel + 1, c :: r =>
    if c == '.' then
      let ds := r.takeWhile Char.isDigit
      if ds.isEmpty then []
      else '.' :: (ds ++ dotRunsF fuel (r.dropWhile Char.isDigit))
    else []

/-- Leftmost match of the version regex: scan for the first position that
is preceded by case-insensitive net and starts a digit, then take the
maximal digit run and its dot-separated continuations. -/
def scanMatch : List Char → List Char → Option (List Char)
  | _, [] => none
  | pre, c :: rest =>
    if c.isDigit && netBefore pre then
      some ((c :: rest).takeWhile Char.isDigit ++
        dotRunsF ((c :: rest).dropWhile Char.isDigit).length
          ((c :: rest).dropWhile Char.isDigit))
    else scanMatch (c :: pre) rest

/-- targetFramework.match of the net version regex (case-insensitive
lookbehind net, digits, dot-digit groups): the matched run, or none. -/
def versionMatch (s : String) : Option String :=
  (scanMatch [] s.data).map String.mk

/-- Split a character list on dots (helper for the JS Number parse of the
matched run). -/
def splitDotAux : List Char → List Char → List (List Char)
  | [], acc => [acc.reverse]
  | c :: r, acc =>
    if c == '.' then acc.reverse :: splitDotAux r []
    else splitDotAux r (c :: acc)

/-- Numeric value of a digit run. -/
def digitsToNat (l : List Char) : Nat :=
  l.foldl (fun acc c => acc * 10 + (c.toNat - '0'.toNat)) 0

/-- JS Number(m) at least 6, for a matched run m of shape digit groups
separated by dots: with two or more dots Number yields NaN and every
comparison is false; otherwise the value is the integer part plus a
fraction in the half-open unit interval, so the comparison against 6 is
decided by the integer part alone. -/
def numGe6 (m : String) : Bool :=
  match splitDotAux m.data [] with
  | [intPart] => decide (6 ≤ digitsToNat intPart)
  | [intPart, _] => decide (6 ≤ digitsToNat intPart)
  | _ => false

/-- CsprojReader.isTargetFrameworkHigherThanOrEqualToDotNet6.  Note: in
the source, Number.isNaN(versionMatch[0]) is applied to a string and is
therefore always false, so an unparseable matched run falls through to
Number(m) >= 6, which is false on NaN; and an empty resolved
TargetFramework is falsy in JS and yields undefined. -/
def isTargetFrameworkHigherThanOrEqualToDotNet6 (env : Env)
    (filePath : String) : Option Bool :=
  match getTargetFramework env filePath with
  | none => none
  | some targetFramework =>
    if targetFramework = "" then none
    else
      match versionMatch targetFramework with
      | none => some false
      | some m => some (numGe6 m)

/-- CsprojReader.getUsings (private): all Using elements across all
ItemGroup elements of the root document, group order and inner order
preserved; no error handling, so a read or parse failure propagates. -/
def getUsings (env : Env) (filePath : String) : Except Unit (List Using) :=
  match getXmlContent env filePath with
  | .error e => .error e
  | .ok xmlContent =>
    match xmlContent.Project.bind ProjectNode.ItemGroup with
    | none => .ok []
    | some igs =>
      .ok ((igs.filter (fun g => g.Using.isSome)).foldl
        (fun acc g =>
          match g.Using with
          | none => acc
          | some us => acc ++ us) [])

/-- CsprojReader.getUsingsInclude: the Include attribute of every Using
element that has an attribute record with an Include key (an empty string
counts as present); no error handling, so failures propagate. -/
def getUsingsInclude (env : Env) (filePath : String) :
    Except Unit (List String) :=
  match getUsings env filePath with
  | .error e => .error e
  | .ok usings =>
    .ok ((usings.filter (fun u =>
        u.attrs.isSome && (u.attrs.bind UsingAttrs.Include).isSome)).filterMap
      (fun u => u.attrs.bind UsingAttrs.Include))

/-- CsprojReader.getUsingsRemove: symmetric to getUsingsInclude over the
Remove attribute. -/
def getUsingsRemove (env : Env) (filePath : String) :
    Except Unit (List String) :=
  match getUsings env filePath with
  | .error e => .error e
  | .ok usings =>
    .ok ((usings.filter (fun u =>
        u.attrs.isSome && (u.attrs.bind UsingAttrs.Remove).isSome)).filterMap
      (fun u => u.attrs.bind UsingAttrs.Remove))

/-- The malformed inputs exercised by the specification and the test
suite, none of which the xml2js parser accepts. -/
def malformedInputs : List String :=
  ["", "<", "<>", "/>", "<lorem>", "</lorem>", "lorem ipsum"]

/-! Concrete fixtures used by witnesses and counterexamples. -/

/-- A property group defining only RootNamespace. -/
def pgRN (ns : String) : PropertyGroup := ⟨some [ns], none, none⟩

/-- A property group defining only TargetFramework. -/
def pgTF (tf : String) : PropertyGroup := ⟨none, some [tf], none⟩

/-- A property group defining only ImplicitUsings. -/
def pgIU (v : String) : PropertyGroup := ⟨none, none, some [v]⟩

/-- A property group defining nothing. -/
def pgEmpty : PropertyGroup := ⟨none, none, none⟩

/-- A document whose Project node has exactly the given property groups. -/
def docOfPgs (pgs : List PropertyGroup) : Csproj := ⟨some ⟨some pgs, none, none⟩⟩

/-- A document whose Project node has no property groups and a single
Import element referencing the given path. -/
def docImportRef (ref : String) : Csproj :=
  ⟨some ⟨none, none, some [⟨some ⟨some ref⟩⟩]⟩⟩

/-- An environment that serves the given parsed document at every path. -/
def envOfDoc (doc : Csproj) : Env :=
  { read := fun _ => some "content", parse := fun _ => some doc,
    sep := "/", dirname := fun _ => "", resolve := fun _ r => r }

/-- An environment whose file content never parses. -/
def envParseFail : Env :=
  { read := fun _ => some "lorem ipsum", parse := fun _ => none,
    sep := "/", dirname := fun _ => "", resolve := fun _ r => r }

/-! Helper lemmas about the shared scalar lookup. -/

theorem find_first_defined {f : PropertyGroup → Option (List String)}
    (pre : List PropertyGroup) (g : PropertyGroup) (post : List PropertyGroup)
    (hpre : ∀ p ∈ pre, f p = none) (hg : (f g).isSome = true) :
    (pre ++ g :: post).find? (fun p => (f p).isSome) = some g := by
  induction pre with
  | nil => simp [List.find?, hg]
  | cons a l ih =>
    have ha : f a = none := hpre a (by simp)
    have ha' : (f a).isSome = false := by rw [ha]; rfl
    simpa [List.find?, ha'] using ih (fun p hp => hpre p (by simp [hp]))

theorem find_none_of_all_none {f : PropertyGroup → Option (List String)}
    (l : List PropertyGroup) (h : ∀ p ∈ l, f p = none) :
    l.find? (fun p => (f p).isSome) = none := by
  induction l with
  | nil => rfl
  | cons a t ih =>
    have ha : f a = none := h a (by simp)
    have ha' : (f a).isSome = false := by rw [ha]; rfl
    simpa [List.find?, ha'] using ih (fun p hp => h p (by simp [hp]))

theorem firstDefined_append {f : PropertyGroup → Option (List String)}
    (pre : List PropertyGroup) (g : PropertyGroup) (post : List PropertyGroup)
    (v : String) (rest : List String)
    (hpre : ∀ p ∈ pre, f p = none) (hg : f g = some (v :: rest)) :
    firstDefined f (pre ++ g :: post) = some v := by
  unfold firstDefined
  rw [find_first_defined pre g post hpre (by rw [hg]; rfl)]
  simp [hg]

theorem firstDefined_of_all_none {f : PropertyGroup → Option (List String)}
    (pgs : List PropertyGroup) (h : ∀ p ∈ pgs, f p = none) :
    firstDefined f pgs = none := by
  unfold firstDefined
  rw [find_none_of_all_none pgs h]

/-! Helper lemmas about getPropertyGroups and the getters. -/

theorem getPropertyGroups_present (env : Env) (fp : String) (doc : Csproj)
    (pgs : List PropertyGroup) (h1 : getXmlContent env fp = .ok doc)
    (h2 : doc.Project.bind ProjectNode.PropertyGroup = some pgs) :
    getPropertyGroups env fp = .ok (some pgs) := by
  unfold getPropertyGroups
  rw [h1]
  simp [h2]

theorem getPropertyGroups_error (env : Env) (fp : String)
    (h : getXmlContent env fp = .error ()) :
    getPropertyGroups env fp = .error () := by
  unfold getPropertyGroups
  rw [h]

theorem getPropertyGroups_import (env : Env) (fp : String) (doc : Csproj)
    (imp : ImportElem) (rest : List ImportElem) (a : ImportAttrs) (ref : String)
    (h1 : getXmlContent env fp = .ok doc)
    (h2 : doc.Project.bind ProjectNode.PropertyGroup = none)
    (h3 : doc.Project.bind ProjectNode.Import = some (imp :: rest))
    (h4 : imp.attrs = some a) (h5 : a.Project = some ref) :
    getPropertyGroups env fp =
      match getXmlContent env (importTargetPath env fp ref) with
      | .error e => .error e
      | .ok d2 => .ok (d2.Project.bind ProjectNode.PropertyGroup) := by
  unfold getPropertyGroups
  rw [h1]
  simp only [h2, h3, h4, h5]

theorem getXmlContent_fail (env : Env) (fp s : String)
    (hr : env.read fp = some s) (hp : env.parse s = none) :
    getXmlContent env fp = .error () := by
  unfold getXmlContent
  rw [hr]
  simp [hp]

theorem getRootNamespace_pg (env : Env) (fp : String) (pgs : List PropertyGroup)
    (h : getPropertyGroups env fp = .ok (some pgs)) :
    getRootNamespace env fp = firstDefined (fun p => p.RootNamespace) pgs := by
  unfold getRootNamespace
  rw [h]

theorem getTargetFramework_pg (env : Env) (fp : String) (pgs : List PropertyGroup)
    (h : getPropertyGroups env fp = .ok (some pgs)) :
    getTargetFramework env fp = firstDefined (fun p => p.TargetFramework) pgs := by
  unfold getTargetFramework
  rw [h]

theorem getRootNamespace_none (env : Env) (fp : String)
    (h : getPropertyGroups env fp = .ok none) :
    getRootNamespace env fp = none := by
  unfold getRootNamespace
  rw [h]

theorem getTargetFramework_none (env : Env) (fp : String)
    (h : getPropertyGroups env fp = .ok none) :
    getTargetFramework env fp = none := by
  unfold getTargetFramework
  rw [h]

/-- C1: for a structurally valid document whose Project node has one or
more PropertyGroup children, getRootNamespace and getTargetFramework
return the sought property's value from the first PropertyGroup, in
document order, that defines it, independently of what any earlier or
later group defines; if no group defines it the result is absent. -/
theorem c1_first_group_wins (env : Env) (fp : String) (doc : Csproj)
    (h : getXmlContent env fp = .ok doc) :
    (∀ pre g post v rest,
      doc.Project.bind ProjectNode.PropertyGroup = some (pre ++ g :: post) →
      (∀ p ∈ pre, p.RootNamespace = none) →
      g.RootNamespace = some (v :: rest) →
      getRootNamespace env fp = some v) ∧
    (∀ pgs, doc.Project.bind ProjectNode.PropertyGroup = some pgs →
      (∀ p ∈ pgs, p.RootNamespace = none) →
      getRootNamespace env fp = none) ∧
    (∀ pre g post v rest,
      doc.Project.bind ProjectNode.PropertyGroup = some (pre ++ g :: post) →
      (∀ p ∈ pre, p.TargetFramework = none) →
      g.TargetFramework = some (v :: rest) →
      getTargetFramework env fp = some v) ∧
    (∀ pgs, doc.Project.bind ProjectNode.PropertyGroup = some pgs →
      (∀ p ∈ pgs, p.TargetFramework = none) →
      getTargetFramework env fp = none) := by
  refine ⟨?_, ?_, ?_, ?_⟩
  · intro pre g post v rest h2 hpre hg
    rw [getRootNamespace_pg env fp _ (getPropertyGroups_present env fp doc _ h h2)]
    exact firstDefined_append pre g post v rest hpre hg
  · intro pgs h2 hall
    rw [getRootNamespace_pg env fp _ (getPropertyGroups_present env fp doc _ h h2)]
    exact firstDefined_of_all_none pgs hall
  · intro pre g post v rest h2 hpre hg
    rw [getTargetFramework_pg env fp _ (getPropertyGroups_present env fp doc _ h h2)]
    exact firstDefined_append pre g post v rest hpre hg
  · intro pgs h2 hall
    rw [getTargetFramework_pg env fp _ (getPropertyGroups_present env fp doc _ h h2)]
    exact firstDefined_of_all_none pgs hall

/-- Witness for C1: in a document whose first group defines only
TargetFramework and whose second group defines RootNamespace, each
property is read from the first group defining it. -/
theorem c1_first_group_wins_witness :
    getXmlContent (envOfDoc (docOfPgs [pgTF "net7.0", pgRN "My.Ns"])) "p" =
      .ok (docOfPgs [pgTF "net7.0", pgRN "My.Ns"]) ∧
    getRootNamespace (envOfDoc (docOfPgs [pgTF "net7.0", pgRN "My.Ns"])) "p" =
      some "My.Ns" ∧
    getTargetFramework (envOfDoc (docOfPgs [pgTF "net7.0", pgRN "My.Ns"])) "p" =
      some "net7.0" := by
  refine ⟨rfl, ?_, ?_⟩
  · exact (c1_first_group_wins (envOfDoc (docOfPgs [pgTF "net7.0", pgRN "My.Ns"]))
      "p" (docOfPgs [pgTF "net7.0", pgRN "My.Ns"]) rfl).1
      [pgTF "net7.0"] (pgRN "My.Ns") [] "My.Ns" [] rfl (by decide) rfl
  · exact (c1_first_group_wins (envOfDoc (docOfPgs [pgTF "net7.0", pgRN "My.Ns"]))
      "p" (docOfPgs [pgTF "net7.0", pgRN "My.Ns"]) rfl).2.2.1
      [] (pgTF "net7.0") [pgRN "My.Ns"] "net7.0" [] rfl (by decide) rfl

/-- C2: when the Project node has at least one PropertyGroup child but no
group defines the sought scalar property, resolution is absent and the
Import target is never consulted: the environment away from the root
document is arbitrary, and getPropertyGroups returns the root groups
unchanged, so no import fallback is attempted in this branch. -/
theorem c2_no_import_when_groups_exist (env : Env) (fp : String) (doc : Csproj)
    (pgs : List PropertyGroup)
    (h1 : getXmlContent env fp = .ok doc)
    (h2 : doc.Project.bind ProjectNode.PropertyGroup = some pgs)
    (h3 : pgs ≠ []) :
    getPropertyGroups env fp = .ok (some pgs) ∧
    ((∀ p ∈ pgs, p.RootNamespace = none) → getRootNamespace env fp = none) ∧
    ((∀ p ∈ pgs, p.TargetFramework = none) → getTargetFramework env fp = none) := by
  have hpg := getPropertyGroups_present env fp doc pgs h1 h2
  refine ⟨hpg, ?_, ?_⟩
  · intro hall
    rw [getRootNamespace_pg env fp pgs hpg]
    exact firstDefined_of_all_none pgs hall
  · intro hall
    rw [getTargetFramework_pg env fp pgs hpg]
    exact firstDefined_of_all_none pgs hall

/-- Witness for C2: a document with one property group that defines only
ImplicitUsings resolves RootNamespace and TargetFramework to absent, in an
environment whose other paths are never read. -/
theorem c2_no_import_when_groups_exist_witness :
    getXmlContent (envOfDoc (docOfPgs [pgIU "enable"])) "p" =
      .ok (docOfPgs [pgIU "enable"]) ∧
    ([pgIU "enable"] : List PropertyGroup) ≠ [] ∧
    getRootNamespace (envOfDoc (docOfPgs [pgIU "enable"])) "p" = none ∧
    getTargetFramework (envOfDoc (docOfPgs [pgIU "enable"])) "p" = none := by
  have h := c2_no_import_when_groups_exist (envOfDoc (docOfPgs [pgIU "enable"]))
    "p" (docOfPgs [pgIU "enable"]) [pgIU "enable"] rfl rfl (by decide)
  exact ⟨rfl, by decide, h.2.1 (by decide), h.2.2 (by decide)⟩

/-- C3: with zero PropertyGroup children and one Import element, scalar
resolution yields the imported document's first matching property's value;
only the imported document's PropertyGroup key is consulted, so an Import
inside the imported document is ignored (the environment beyond the two
documents is arbitrary), and when the imported document also lacks
PropertyGroups the result is absent. -/
theorem c3_single_hop_import (env : Env) (fp : String) (doc : Csproj)
    (imp : ImportElem) (a : ImportAttrs) (ref : String) (doc2 : Csproj)
    (h1 : getXmlContent env fp = .ok doc)
    (h2 : doc.Project.bind ProjectNode.PropertyGroup = none)
    (h3 : doc.Project.bind ProjectNode.Import = some [imp])
    (h4 : imp.attrs = some a) (h5 : a.Project = some ref)
    (h6 : getXmlContent env (importTargetPath env fp ref) = .ok doc2) :
    (∀ pre g post v rest,
      doc2.Project.bind ProjectNode.PropertyGroup = some (pre ++ g :: post) →
      (∀ p ∈ pre, p.RootNamespace = none) →
      g.RootNamespace = some (v :: rest) →
      getRootNamespace env fp = some v) ∧
    (∀ pre g post v rest,
      doc2.Project.bind ProjectNode.PropertyGroup = some (pre ++ g :: post) →
      (∀ p ∈ pre, p.TargetFramework = none) →
      g.TargetFramework = some (v :: rest) →
      getTargetFramework env fp = some v) ∧
    (doc2.Project.bind ProjectNode.PropertyGroup = none →
      getRootNamespace env fp = none ∧ getTargetFramework env fp = none) := by
  have himp : getPropertyGroups env fp =
      .ok (doc2.Project.bind ProjectNode.PropertyGroup) := by
    rw [getPropertyGroups_import env fp doc imp [] a ref h1 h2 h3 h4 h5, h6]
  refine ⟨?_, ?_, ?_⟩
  · intro pre g post v rest h7 hpre hg
    rw [getRootNamespace_pg env fp _ (by rw [himp, h7])]
    exact firstDefined_append pre g post v rest hpre hg
  · intro pre g post v rest h7 hpre hg
    rw [getTargetFramework_pg env fp _ (by rw [himp, h7])]
    exact firstDefined_append pre g post v rest hpre hg
  · intro h7
    have hnone : getPropertyGroups env fp = .ok none := by rw [himp, h7]
    exact ⟨getRootNamespace_none env fp hnone, getTargetFramework_none env fp hnone⟩

/-- Import target used by the C3 witness: it has property groups (the
first empty, the second defining RootNamespace) and also its own Import
element, which resolution ignores. -/
def docNsTarget : Csproj :=
  ⟨some ⟨some [pgEmpty, pgRN "Imported.Ns"], none, some [⟨some ⟨some "zzz"⟩⟩]⟩⟩

/-- Environment of the C3 witness: the root document at path r is
Import-only with reference t, and the file at path t is the target. -/
def envC3 : Env :=
  { read := fun p => if p = "r" then some "R" else if p = "t" then some "T" else none,
    parse := fun c => if c = "R" then some (docImportRef "t")
      else if c = "T" then some docNsTarget else none,
    sep := "/", dirname := fun _ => "", resolve := fun _ r => r }

/-- Witness for C3: the import-only root resolves RootNamespace through
the import target, skipping the target's empty first group and ignoring
the target's own Import element. -/
theorem c3_single_hop_import_witness :
    getXmlContent envC3 "r" = .ok (docImportRef "t") ∧
    getXmlContent envC3 (importTargetPath envC3 "r" "t") = .ok docNsTarget ∧
    getRootNamespace envC3 "r" = some "Imported.Ns" := by
  refine ⟨rfl, rfl, ?_⟩
  exact (c3_single_hop_import envC3 "r" (docImportRef "t") ⟨some ⟨some "t"⟩⟩
    ⟨some "t"⟩ "t" docNsTarget rfl rfl rfl rfl rfl rfl).1
    [pgEmpty] (pgRN "Imported.Ns") [] "Imported.Ns" [] rfl (by decide) rfl

/-! Helper lemmas about getUsings. -/

theorem getUsings_error (env : Env) (fp : String)
    (h : getXmlContent env fp = .error ()) :
    getUsings env fp = .error () := by
  unfold getUsings
  rw [h]

theorem getUsings_no_itemGroup (env : Env) (fp : String) (doc : Csproj)
    (h1 : getXmlContent env fp = .ok doc)
    (h2 : doc.Project.bind ProjectNode.ItemGroup = none) :
    getUsings env fp = .ok [] := by
  unfold getUsings
  rw [h1]
  simp [h2]

theorem getUsings_congr (env1 env2 : Env) (fp : String)
    (h : getXmlContent env1 fp = getXmlContent env2 fp) :
    getUsings env1 fp = getUsings env2 fp := by
  unfold getUsings
  rw [h]

theorem getUsingsInclude_of_getUsings (env1 env2 : Env) (fp : String)
    (h : getUsings env1 fp = getUsings env2 fp) :
    getUsingsInclude env1 fp = getUsingsInclude env2 fp := by
  unfold getUsingsInclude
  rw [h]

theorem getUsingsRemove_of_getUsings (env1 env2 : Env) (fp : String)
    (h : getUsings env1 fp = getUsings env2 fp) :
    getUsingsRemove env1 fp = getUsingsRemove env2 fp := by
  unfold getUsingsRemove
  rw [h]

/-- C4 counterexample: on a document that fails to parse, getUsingsInclude
and getUsingsRemove do not return an empty list — the parse failure
propagates as a fault to the caller, because getUsings, getUsingsInclude
and getUsingsRemove have no error handling, unlike the scalar getters. -/
theorem c4_usings_total_counterexample :
    getUsingsInclude envParseFail "p" = .error () ∧
    getUsingsRemove envParseFail "p" = .error () := ⟨rfl, rfl⟩

/-- C4 (amended): getUsingsInclude and getUsingsRemove operate on the root
document only — their results are fixed by the parse outcome of the bound
path — and for a parsed document with no ItemGroup key they return an
empty list; but a document that fails to load or parse propagates a fault
to the caller instead of yielding an empty list. -/
theorem c4_usings_amended :
    (∀ env fp doc, getXmlContent env fp = .ok doc →
      doc.Project.bind ProjectNode.ItemGroup = none →
      getUsingsInclude env fp = .ok [] ∧ getUsingsRemove env fp = .ok []) ∧
    (∀ env fp, getXmlContent env fp = .error () →
      getUsingsInclude env fp = .error () ∧
      getUsingsRemove env fp = .error ()) ∧
    (∀ env1 env2 fp, getXmlContent env1 fp = getXmlContent env2 fp →
      getUsingsInclude env1 fp = getUsingsInclude env2 fp ∧
      getUsingsRemove env1 fp = getUsingsRemove env2 fp) := by
  refine ⟨?_, ?_, ?_⟩
  · intro env fp doc h1 h2
    have hu := getUsings_no_itemGroup env fp doc h1 h2
    constructor
    · unfold getUsingsInclude; rw [hu]; rfl
    · unfold getUsingsRemove; rw [hu]; rfl
  · intro env fp h
    have hu := getUsings_error env fp h
    constructor
    · unfold getUsingsInclude; rw [hu]
    · unfold getUsingsRemove; rw [hu]
  · intro env1 env2 fp h
    have hu := getUsings_congr env1 env2 fp h
    exact ⟨getUsingsInclude_of_getUsings env1 env2 fp hu,
      getUsingsRemove_of_getUsings env1 env2 fp hu⟩

/-- Witness for the amended C4: a document with no ItemGroup yields empty
lists, and an unparseable document yields a propagated error. -/
theorem c4_usings_amended_witness :
    getXmlContent (envOfDoc (docOfPgs [])) "p" = .ok (docOfPgs []) ∧
    (docOfPgs []).Project.bind ProjectNode.ItemGroup = none ∧
    getUsingsInclude (envOfDoc (docOfPgs [])) "p" = .ok [] ∧
    getXmlContent envParseFail "q" = .error () ∧
    getUsingsRemove envParseFail "q" = .error () := by
  refine ⟨rfl, rfl, ?_, rfl, ?_⟩
  · exact (c4_usings_amended.1 (envOfDoc (docOfPgs [])) "p" (docOfPgs []) rfl rfl).1
  · exact (c4_usings_amended.2.1 envParseFail "q" rfl).2

/-- Environment of the C5 witness: every read yields a malformed content
that the parser rejects. -/
def envMalformed : Env :=
  { read := fun _ => some "<", parse := fun _ => none,
    sep := "/", dirname := fun _ => "", resolve := fun _ r => r }

/-- C5: for each malformed content in the fixed set, given that the xml2js
parser rejects it (spec section 4.2: content that is not well formed for
the expected shape fails to parse), getRootNamespace and
getTargetFramework are absent and useImplicitUsings is false; no fault
escapes these three operations — their result types carry no error case,
the caught parse error being converted at the query boundary. -/
theorem c5_malformed_queries (env : Env) (fp s : String)
    (hs : s ∈ malformedInputs)
    (hr : env.read fp = some s) (hp : env.parse s = none) :
    getRootNamespace env fp = none ∧
    getTargetFramework env fp = none ∧
    useImplicitUsings env fp = false := by
  have herr := getPropertyGroups_error env fp (getXmlContent_fail env fp s hr hp)
  refine ⟨?_, ?_, ?_⟩
  · unfold getRootNamespace; rw [herr]
  · unfold getTargetFramework; rw [herr]
  · unfold useImplicitUsings; rw [herr]

/-- Witness for C5 at the malformed content consisting of a lone opening
angle bracket. -/
theorem c5_malformed_queries_witness :
    ("<" ∈ malformedInputs ∧ envMalformed.read "p" = some "<" ∧
      envMalformed.parse "<" = none) ∧
    getRootNamespace envMalformed "p" = none ∧
    getTargetFramework envMalformed "p" = none ∧
    useImplicitUsings envMalformed "p" = false := by
  refine ⟨⟨by decide, rfl, rfl⟩, ?_⟩
  exact c5_malformed_queries envMalformed "p" "<" (by decide) rfl rfl

/-- C6: the framework comparator maps a resolved net6.0 to true, net5.0 to
false, netcoreapp3.1 to false (the version regex finds no digit run
immediately preceded by net in that moniker), and yields absent — distinct
from false — when no TargetFramework resolves at all. -/
theorem c6_comparator_table :
    isTargetFrameworkHigherThanOrEqualToDotNet6
      (envOfDoc (docOfPgs [pgTF "net6.0"])) "p" = some true ∧
    isTargetFrameworkHigherThanOrEqualToDotNet6
      (envOfDoc (docOfPgs [pgTF "net5.0"])) "p" = some false ∧
    isTargetFrameworkHigherThanOrEqualToDotNet6
      (envOfDoc (docOfPgs [pgTF "netcoreapp3.1"])) "p" = some false ∧
    isTargetFrameworkHigherThanOrEqualToDotNet6
      (envOfDoc (docOfPgs [pgEmpty])) "p" = none :=
  ⟨by decide, by decide, by decide, by decide⟩

/-! Helper lemmas about the version comparison. -/

theorem splitDotAux_length (l : List Char) :
    ∀ acc, (splitDotAux l acc).length = l.count '.' + 1 := by
  induction l with
  | nil => intro acc; simp [splitDotAux]
  | cons c r ih =>
    intro acc
    by_cases hc : c = '.'
    · subst hc
      simp [splitDotAux, ih, List.count_cons]
    · have hcb : (c == '.') = false := by simp [hc]
      simp [splitDotAux, hcb, ih, List.count_cons, hc]

theorem numGe6_nan (m : String) (h : 2 ≤ m.data.count '.') :
    numGe6 m = false := by
  have hlen := splitDotAux_length m.data []
  unfold numGe6
  cases hsp : splitDotAux m.data [] with
  | nil => exfalso; rw [hsp] at hlen; simp at hlen
  | cons a t1 =>
    cases t1 with
    | nil => exfalso; rw [hsp] at hlen; simp at hlen; omega
    | cons b t2 =>
      cases t2 with
      | nil => exfalso; rw [hsp] at hlen; simp at hlen; omega
      | cons c t3 => rfl

theorem isTFM6_false_of (env : Env) (fp tf : String)
    (h1 : getTargetFramework env fp = some tf) (h2 : tf ≠ "")
    (h3 : versionMatch tf = none ∨
      ∃ m, versionMatch tf = some m ∧ numGe6 m = false) :
    isTargetFrameworkHigherThanOrEqualToDotNet6 env fp = some false := by
  unfold isTargetFrameworkHigherThanOrEqualToDotNet6
  rw [h1]
  show (if tf = "" then none else
    match versionMatch tf with
    | none => some false
    | some m => some (numGe6 m)) = some false
  rw [if_neg h2]
  rcases h3 with h3 | ⟨m, hm, hge⟩
  · rw [h3]
  · rw [hm]
    show some (numGe6 m) = some false
    rw [hge]

/-- C7 (amended): for every resolved, non-absent and non-empty
TargetFramework moniker in which either the version regex finds no digit
run immediately preceded by net, or the matched run contains two or more
dots and hence is not convertible to a number, the comparator returns
false, not absent.  The non-empty proviso is forced by the counterexample:
an empty resolved moniker is falsy in JS and yields absent. -/
theorem c7_unparsable_is_false (env : Env) (fp tf : String)
    (h1 : getTargetFramework env fp = some tf) (h2 : tf ≠ "")
    (h3 : versionMatch tf = none ∨
      ∃ m, versionMatch tf = some m ∧ 2 ≤ m.data.count '.') :
    isTargetFrameworkHigherThanOrEqualToDotNet6 env fp = some false := by
  apply isTFM6_false_of env fp tf h1 h2
  rcases h3 with h3 | ⟨m, hm, hd⟩
  · exact Or.inl h3
  · exact Or.inr ⟨m, hm, numGe6_nan m hd⟩

/-- C7 counterexample: a document resolving TargetFramework to the empty
string gives a resolved, non-absent moniker in which no numeric run
follows net, yet the comparator returns absent rather than false, because
the empty string is falsy in JS. -/
theorem c7_unparsable_is_false_counterexample :
    getTargetFramework (envOfDoc (docOfPgs [pgTF ""])) "p" = some "" ∧
    versionMatch "" = none ∧
    isTargetFrameworkHigherThanOrEqualToDotNet6
      (envOfDoc (docOfPgs [pgTF ""])) "p" = none :=
  ⟨rfl, rfl, rfl⟩

/-- Witness for the amended C7: a moniker without any digit run after net
resolves and compares to false. -/
theorem c7_unparsable_is_false_witness :
    getTargetFramework (envOfDoc (docOfPgs [pgTF "unknownFramework"])) "p" =
      some "unknownFramework" ∧
    ("unknownFramework" : String) ≠ "" ∧
    versionMatch "unknownFramework" = none ∧
    isTargetFrameworkHigherThanOrEqualToDotNet6
      (envOfDoc (docOfPgs [pgTF "unknownFramework"])) "p" = some false := by
  refine ⟨rfl, by decide, rfl, ?_⟩
  exact c7_unparsable_is_false (envOfDoc (docOfPgs [pgTF "unknownFramework"]))
    "p" "unknownFramework" rfl (by decide) (Or.inl rfl)

/-- Parse-failure environment used by the C8 conjunct. -/
def envParseFailB : Env :=
  { read := fun _ => some "<>", parse := fun _ => none,
    sep := "/", dirname := fun _ => "", resolve := fun _ r => r }

/-- C8: useImplicitUsings is true exactly when the property groups resolve
and the first group defining ImplicitUsings carries the literal value
enable, compared case-sensitively; absence of the property, any other
value — including the differently cased Enable — and a document load or
parse failure all yield false. -/
theorem c8_implicit_usings_enable :
    (∀ env fp, useImplicitUsings env fp = true ↔
      ∃ pgs, getPropertyGroups env fp = .ok (some pgs) ∧
        firstDefined (fun p => p.ImplicitUsings) pgs = some "enable") ∧
    useImplicitUsings (envOfDoc (docOfPgs [pgIU "Enable"])) "p" = false ∧
    useImplicitUsings envParseFailB "p" = false := by
  refine ⟨?_, by decide, by decide⟩
  intro env fp
  unfold useImplicitUsings
  cases hpg : getPropertyGroups env fp with
  | error e =>
    constructor
    · intro h
      have h' : false = true := h
      exact Bool.noConfusion h'
    · rintro ⟨pgs, hok, -⟩
      exact Except.noConfusion hok
  | ok o =>
    cases o with
    | none =>
      constructor
      · intro h
        have h' : false = true := h
        exact Bool.noConfusion h'
      · rintro ⟨pgs, hok, -⟩
        injection hok with h'
        exact Option.noConfusion h'
    | some pgs =>
      change (match firstDefined (fun p => p.ImplicitUsings) pgs with
        | none => false
        | some v => v == "enable") = true ↔
        ∃ pgs', (Except.ok (some pgs) : Except Unit (Option (List PropertyGroup))) =
          Except.ok (some pgs') ∧
          firstDefined (fun p => p.ImplicitUsings) pgs' = some "enable"
      cases hfd : firstDefined (fun p => p.ImplicitUsings) pgs with
      | none =>
        constructor
        · intro h
          have h' : false = true := h
          exact Bool.noConfusion h'
        · rintro ⟨pgs', hok, hen⟩
          injection hok with h'
          injection h' with h''
          subst h''
          rw [hfd] at hen
          exact Option.noConfusion hen
      | some v =>
        constructor
        · intro h
          have h' : (v == "enable") = true := h
          refine ⟨pgs, rfl, ?_⟩
          rw [hfd, eq_of_beq h']
        · rintro ⟨pgs', hok, hen⟩
          injection hok with h'
          injection h' with h''
          subst h''
          rw [hfd] at hen
          injection hen with h3
          show (v == "enable") = true
          rw [h3]
          rfl

/-- Environment of the C9 theorems: the root document is import-only with
reference a backslash b backslash c; the fully separator-normalized path
a/b/c exists and parses to a document defining RootNamespace, but no file
exists at the partially normalized path the code actually reads. -/
def envC9 : Env :=
  { read := fun p => if p = "root" then some "R"
      else if p = "a/b/c" then some "T" else none,
    parse := fun c => if c = "R" then some (docImportRef "a\\b\\c")
      else if c = "T" then some (docOfPgs [pgRN "Resolved.Ns"]) else none,
    sep := "/", dirname := fun _ => "", resolve := fun _ r => r }

/-- C9 counterexample: with platform separator slash and an Import
reference containing two backslashes, only the first backslash is
replaced, so the loaded path still contains a backslash; the import target
present at the fully normalized path, which defines RootNamespace, is
never loaded, and resolution yields absent after the read fault on the
partially normalized path is caught at the query boundary. -/
theorem c9_normalize_counterexample :
    envC9.sep = "/" ∧
    importTargetPath envC9 "root" "a\\b\\c" = "a/b\\c" ∧
    envC9.read "a/b/c" = some "T" ∧
    envC9.parse "T" = some (docOfPgs [pgRN "Resolved.Ns"]) ∧
    getRootNamespace envC9 "root" = none :=
  ⟨rfl, by decide, rfl, rfl, by decide⟩

/-- C9 (amended): when import fallback is taken, the first occurrence of a
backslash and then the first occurrence of a slash in the Import reference
path — not all occurrences — are replaced with the platform separator, the
result is resolved against the directory of the document being read, and
the import target is loaded from exactly that path. -/
theorem c9_import_path_amended (env : Env) (fp : String) (doc : Csproj)
    (imp : ImportElem) (rest : List ImportElem) (a : ImportAttrs) (ref : String)
    (h1 : getXmlContent env fp = .ok doc)
    (h2 : doc.Project.bind ProjectNode.PropertyGroup = none)
    (h3 : doc.Project.bind ProjectNode.Import = some (imp :: rest))
    (h4 : imp.attrs = some a) (h5 : a.Project = some ref) :
    getPropertyGroups env fp =
      (match getXmlContent env (env.resolve (env.dirname fp)
          (replaceFirst (replaceFirst ref "\\" env.sep) "/" env.sep)) with
        | .error e => .error e
        | .ok d2 => .ok (d2.Project.bind ProjectNode.PropertyGroup)) ∧
    replaceFirst "a\\b\\c" "\\" "/" = "a/b\\c" :=
  ⟨getPropertyGroups_import env fp doc imp rest a ref h1 h2 h3 h4 h5, by decide⟩

/-- Witness for the amended C9, at the counterexample environment. -/
theorem c9_import_path_amended_witness :
    getXmlContent envC9 "root" = .ok (docImportRef "a\\b\\c") ∧
    getPropertyGroups envC9 "root" =
      (match getXmlContent envC9 (envC9.resolve (envC9.dirname "root")
          (replaceFirst (replaceFirst "a\\b\\c" "\\" envC9.sep) "/" envC9.sep)) with
        | .error e => .error e
        | .ok d2 => .ok (d2.Project.bind ProjectNode.PropertyGroup)) := by
  refine ⟨rfl, ?_⟩
  exact (c9_import_path_amended envC9 "root" (docImportRef "a\\b\\c")
    ⟨some ⟨some "a\\b\\c"⟩⟩ [] ⟨some "a\\b\\c"⟩ "a\\b\\c" rfl rfl rfl rfl rfl).1

/-- C10: when the matched numeric run after net contains two or more dots
(three or more dot-separated segments, like net6.0.1), the comparator
returns false even though the leading segments reach 6, because the full
matched run is not convertible to a number. -/
theorem c10_multi_dot_is_false (env : Env) (fp tf m : String)
    (h1 : getTargetFramework env fp = some tf)
    (h2 : versionMatch tf = some m)
    (h3 : 2 ≤ m.data.count '.') :
    isTargetFrameworkHigherThanOrEqualToDotNet6 env fp = some false := by
  have htf : tf ≠ "" := by
    intro he
    rw [he] at h2
    have hnone : versionMatch "" = none := rfl
    rw [hnone] at h2
    exact Option.noConfusion h2
  exact isTFM6_false_of env fp tf h1 htf (Or.inr ⟨m, h2, numGe6_nan m h3⟩)

/-- Witness for C10 at the moniker net6.0.1, whose matched run 6.0.1 has
two dots and leading segment 6. -/
theorem c10_multi_dot_is_false_witness :
    getTargetFramework (envOfDoc (docOfPgs [pgTF "net6.0.1"])) "p" =
      some "net6.0.1" ∧
    versionMatch "net6.0.1" = some "6.0.1" ∧
    2 ≤ ("6.0.1" : String).data.count '.' ∧
    isTargetFrameworkHigherThanOrEqualToDotNet6
      (envOfDoc (docOfPgs [pgTF "net6.0.1"])) "p" = some false := by
  refine ⟨rfl, rfl, by decide, ?_⟩
  exact c10_multi_dot_is_false (envOfDoc (docOfPgs [pgTF "net6.0.1"])) "p"
    "net6.0.1" "6.0.1" rfl rfl (by decide)

end CsprojVerify
